import Mathlib

set_option maxRecDepth 200000

/-!
# Verification of the stillwater-backend analytics core

Shallow embedding of the analytics engine (crates/analytics) and the
models crate (crates/models) of the stillwater-backend repository.

Modelling conventions:
* `rust_decimal::Decimal` values are modelled as exact rationals `ℚ`.
  The `Decimal` type itself is a 96-bit scaled integer with maximum value
  `decimalMax = 2^96 - 1` (≈ 7.9e28); where representability matters
  (parsing of 256-bit integers, exponential overflow) we model it
  explicitly (`decimalParse`, theorems comparing against `decimalMax`).
* The transcendental operations `Decimal::exp` / `Decimal::ln` are
  provided by the third-party `rust_decimal` maths feature, whose source
  is not part of this repository.  They are abstracted as a pair of
  functions (`DecOps`); the embedded code is parameterised over them, so
  theorems quantifying over `DecOps` hold in particular for the library
  implementations.  A concrete computable rational approximation
  (`ratOps`) is supplied for evaluating concrete scenarios; its accuracy
  is far finer than any margin the concrete statements depend on.
* Rust `i32` ticks are modelled as `ℤ` (claims that involve the 32-bit
  bound state it explicitly), `U256` liquidity as `ℕ`, `I256` swap
  amounts as `ℤ`.
* `Decimal::round` is round-half-to-even (`roundBankers`), and
  `to_i32().unwrap_or(0)` is `toI32orZero`.
-/

namespace Stillwater

/-- The transcendental operations of `rust_decimal` (`Decimal::exp`,
`Decimal::ln`), abstracted: the crate is third-party and its source is
not part of this repository. -/
structure DecOps where
  exp : ℚ → ℚ
  ln : ℚ → ℚ

/-- Maximum value representable by `rust_decimal::Decimal`: `2^96 - 1`. -/
def decimalMax : ℚ := 79228162514264337593543950335

/-- `Decimal::from_str` applied to the decimal string of a nonnegative
integer (used for `U256` liquidity): succeeds exactly when the value fits
in the 96-bit mantissa. -/
def decimalParse (n : ℕ) : Option ℚ :=
  if n < 2 ^ 96 then some (n : ℚ) else none

/-- `I256::abs().to_string()` then `Decimal::from_str(..).unwrap_or(ZERO)`
(crates/analytics/src/pnl.rs, fee loop): values outside the 96-bit
mantissa silently become zero. -/
def decimalParseOrZero (n : ℕ) : ℚ :=
  if n < 2 ^ 96 then (n : ℚ) else 0

/-- `Decimal::round`: round half to even (banker's rounding). -/
def roundBankers (q : ℚ) : ℤ :=
  let f := Int.fdiv q.num q.den
  let fr := q - (f : ℚ)
  if fr < 1 / 2 then f
  else if 1 / 2 < fr then f + 1
  else if f % 2 = 0 then f else f + 1

/-- `.to_i32().unwrap_or(0)` on an integral value. -/
def toI32orZero (z : ℤ) : ℤ :=
  if z < -(2 ^ 31) then 0 else if 2 ^ 31 - 1 < z then 0 else z

/-! ## Data model (crates/models) -/

/-- `Position` (crates/models/src/position.rs). -/
structure Position where
  id : ℤ
  nft_id : String
  owner : String
  pool_id : String
  tick_lower : ℤ
  tick_upper : ℤ
  liquidity : ℕ
  created_at : ℤ

/-- `Swap` (crates/models/src/swap.rs). -/
structure Swap where
  id : ℤ
  tx_hash : String
  pool_id : String
  amount0 : ℤ
  amount1 : ℤ
  timestamp : ℤ

/-- `PositionPnL` (crates/models/src/pnl.rs). -/
structure PositionPnL where
  fees_earned : ℚ
  impermanent_loss : ℚ
  gas_spent : ℚ
  net_pnl : ℚ

/-- `HealthStatus` (crates/models/src/pnl.rs). -/
inductive HealthStatus where
  | healthy
  | warning
  | critical
deriving DecidableEq, Repr

/-- `HealthStatus::description` (crates/models/src/pnl.rs). -/
def HealthStatus.description : HealthStatus → String
  | .healthy => "Position is in range with positive P&L"
  | .warning => "Position is near the edge of its range"
  | .critical => "Position is out of range or has negative P&L"

/-! ## Price/Tick converter (crates/analytics/src/utils.rs) -/

/-- `is_in_range` (utils.rs): half-open interval check. -/
def is_in_range (current_tick tick_lower tick_upper : ℤ) : Bool :=
  decide (tick_lower ≤ current_tick) && decide (current_tick < tick_upper)

/-- `distance_to_range_edge` (utils.rs). -/
def distance_to_range_edge (current_tick tick_lower tick_upper : ℤ) : ℤ :=
  if current_tick < tick_lower then 0
  else if tick_upper ≤ current_tick then 0
  else min (current_tick - tick_lower) (tick_upper - current_tick)

/-- The precomputed constant `ln(1.0001) ≈ 0.00009999500033330834`
(utils.rs, `tick_to_sqrt_price`). -/
def lnBase : ℚ := 9999500033330834 / 10 ^ 20

/-- The exponent `tick/2 * ln(1.0001)` computed inside
`tick_to_sqrt_price` (utils.rs). -/
def tickExponent (tick : ℤ) : ℚ :=
  (tick : ℚ) * (1 / 2) * lnBase

/-- `tick_to_sqrt_price` (utils.rs): `1.0001^(tick/2)` via
`exp(tick/2 * ln(1.0001))`, clamped when `|exponent| > 100`. -/
def tick_to_sqrt_price (ops : DecOps) (tick : ℤ) : ℚ :=
  let exponent := tickExponent tick
  if 100 < |exponent| then
    if 0 < tick then 1000000 else 1 / 1000000
  else
    ops.exp exponent

/-- `tick_to_price` (utils.rs): `sqrt_price * sqrt_price`. -/
def tick_to_price (ops : DecOps) (tick : ℤ) : ℚ :=
  let sqrt_price := tick_to_sqrt_price ops tick
  sqrt_price * sqrt_price

/-- `price_to_tick` (utils.rs): `round(ln(price)/ln(1.0001))`, `0` for
non-positive prices, `to_i32().unwrap_or(0)` at the end. -/
def price_to_tick (ops : DecOps) (price : ℚ) : ℤ :=
  if price ≤ 0 then 0
  else
    let log_price := ops.ln price
    let log_base := ops.ln (10001 / 10000)
    toI32orZero (roundBankers (log_price / log_base))

/-- `range_width_percent` (utils.rs). -/
def range_width_percent (ops : DecOps) (tick_lower tick_upper : ℤ) : ℚ :=
  let price_lower := tick_to_price ops tick_lower
  let price_upper := tick_to_price ops tick_upper
  if price_lower = 0 then 0
  else (price_upper - price_lower) / price_lower * 100

/-! ## Liquidity valuer (crates/analytics/src/utils.rs) -/

/-- `get_token_amounts_from_liquidity` (utils.rs): three-branch AMM
formula from the Uniswap v3 whitepaper. -/
def get_token_amounts_from_liquidity (ops : DecOps) (liquidity : ℚ)
    (current_tick tick_lower tick_upper : ℤ) : ℚ × ℚ :=
  if liquidity = 0 then (0, 0)
  else
    let sqrt_price := tick_to_sqrt_price ops current_tick
    let sqrt_price_lower := tick_to_sqrt_price ops tick_lower
    let sqrt_price_upper := tick_to_sqrt_price ops tick_upper
    if current_tick < tick_lower then
      (liquidity * (sqrt_price_upper - sqrt_price_lower) /
        (sqrt_price_lower * sqrt_price_upper), 0)
    else if tick_upper ≤ current_tick then
      (0, liquidity * (sqrt_price_upper - sqrt_price_lower))
    else
      (liquidity * (sqrt_price_upper - sqrt_price) /
        (sqrt_price * sqrt_price_upper),
       liquidity * (sqrt_price - sqrt_price_lower))

/-- `calculate_position_value` (utils.rs): `amount0 * price + amount1`. -/
def calculate_position_value (amount0 amount1 price : ℚ) : ℚ :=
  amount0 * price + amount1

/-! ## P&L engine (crates/analytics/src/pnl.rs) -/

/-- `calculate_fees_earned` (pnl.rs): volume-proportional estimate with
fee rate `0.003` and assumed pool share `0.01`. -/
def calculate_fees_earned (_position : Position) (swaps : List Swap) : ℚ :=
  if swaps.isEmpty then 0
  else
    let total_volume :=
      (swaps.map (fun swap =>
        decimalParseOrZero swap.amount0.natAbs +
        decimalParseOrZero swap.amount1.natAbs)).sum
    total_volume * (3 / 1000) * (1 / 100)

/-- `calculate_impermanent_loss` (pnl.rs). -/
def calculate_impermanent_loss (ops : DecOps) (position : Position)
    (initial_price current_price : ℚ) : ℚ :=
  if initial_price = 0 ∨ current_price = 0 then 0
  else if |current_price - initial_price| < 1 / 1000000 then 0
  else
    (decimalParse position.liquidity).elim 0 (fun liquidity =>
      if liquidity = 0 then 0
      else
        let initial_tick := price_to_tick ops initial_price
        let current_tick := price_to_tick ops current_price
        let amounts0 := get_token_amounts_from_liquidity ops liquidity
          initial_tick position.tick_lower position.tick_upper
        let amounts1 := get_token_amounts_from_liquidity ops liquidity
          current_tick position.tick_lower position.tick_upper
        let v_hodl := calculate_position_value amounts0.1 amounts0.2 current_price
        let v_current := calculate_position_value amounts1.1 amounts1.2 current_price
        if v_hodl = 0 then 0
        else max ((v_hodl - v_current) / v_hodl) 0)

/-- `calculate_net_pnl` (pnl.rs): `fees - il - gas`. -/
def calculate_net_pnl (fees il gas : ℚ) : ℚ :=
  fees - il - gas

/-- `calculate_position_pnl` (pnl.rs). -/
def calculate_position_pnl (ops : DecOps) (position : Position)
    (swaps : List Swap) (initial_price current_price gas_spent : ℚ) :
    PositionPnL :=
  let fees_earned := calculate_fees_earned position swaps
  let impermanent_loss := calculate_impermanent_loss ops position initial_price current_price
  let net_pnl := calculate_net_pnl fees_earned impermanent_loss gas_spent
  { fees_earned := fees_earned
    impermanent_loss := impermanent_loss
    gas_spent := gas_spent
    net_pnl := net_pnl }

/-! ## Health classifier -/

/-- Modelled from the spec: the health module
(`crates/analytics/src/health.rs`) is declared in
`crates/analytics/src/lib.rs` and called from the API layer, but its
source body is absent from the repository snapshot.  Spec §4.4:
`Critical` if out of range (`!is_in_range`) or `net_pnl < 0`; `Warning`
if in range but `distance_to_range_edge` is within 10% of the half-width
of the range; `Healthy` otherwise. -/
def get_position_health (position : Position) (current_tick : ℤ)
    (pnl : PositionPnL) : HealthStatus :=
  if is_in_range current_tick position.tick_lower position.tick_upper = false
      ∨ pnl.net_pnl < 0 then
    .critical
  else if (distance_to_range_edge current_tick position.tick_lower
      position.tick_upper : ℚ) ≤
      ((position.tick_upper - position.tick_lower : ℤ) : ℚ) / 2 * (1 / 10) then
    .warning
  else
    .healthy

/-! ## A concrete computable model of `Decimal::exp` / `Decimal::ln`

`rust_decimal`'s maths feature computes `exp` and `ln` by series with an
internal 28-digit working precision.  `ratExp`/`ratLn` below are
computable rational approximations of the same real functions (truncated
Taylor / atanh series with argument reduction and a 40-digit working
scale).  Every concrete statement evaluated through `ratOps` is designed
with margins many orders of magnitude wider than the combined error of
either implementation, so the branch and comparison outcomes match the
library's. -/

/-- Truncate a rational towards minus infinity at `s` decimal digits
(working-precision rounding). -/
def roundScale (s : ℕ) (q : ℚ) : ℚ :=
  ((Int.fdiv (q.num * 10 ^ s) (q.den : ℤ)) : ℚ) / (10 : ℚ) ^ s

/-- Taylor-series loop for `exp`: `fuel` further terms, current index `i`,
current term `t`, accumulator `acc`. -/
def expGo (y : ℚ) : ℕ → ℕ → ℚ → ℚ → ℚ
  | 0, _, _, acc => acc
  | fuel + 1, i, t, acc =>
    let t1 := t * y / (i + 1)
    expGo y fuel (i + 1) t1 (acc + t1)

/-- Truncated Taylor series for `exp` on a reduced argument. -/
def expTaylor (y : ℚ) : ℚ :=
  expGo y 20 0 1 1

/-- Iterated squaring with working-precision rounding. -/
def squareN : ℕ → ℚ → ℚ
  | 0, q => q
  | n + 1, q => squareN n (roundScale 40 (q * q))

/-- Rational approximation of the real exponential:
`exp x = (exp (x/256))^256` with a truncated Taylor series on the
reduced argument. -/
def ratExp (x : ℚ) : ℚ :=
  squareN 8 (roundScale 40 (expTaylor (x / 256)))

/-- Argument reduction for `ln`: write `x = m * 2^k` with `m ∈ [1, 2)`. -/
def lnReduce : ℕ → ℚ → ℤ → ℚ × ℤ
  | 0, x, k => (x, k)
  | fuel + 1, x, k =>
    if 2 ≤ x then lnReduce fuel (x / 2) (k + 1)
    else if x < 1 then lnReduce fuel (x * 2) (k - 1)
    else (x, k)

/-- atanh-series loop for `ln`: `fuel` further odd terms. -/
def lnGo (t2 : ℚ) : ℕ → ℕ → ℚ → ℚ → ℚ
  | 0, _, _, acc => acc
  | fuel + 1, i, tp, acc =>
    let tp1 := tp * t2
    lnGo t2 fuel (i + 1) tp1 (acc + tp1 / (2 * (i + 1) + 1))

/-- Truncated series `atanh t = t + t^3/3 + t^5/5 + ...`. -/
def atanhSeries (t : ℚ) : ℚ :=
  lnGo (t * t) 20 0 t t

/-- `ln 2` to 30 decimal digits. -/
def ln2Const : ℚ := 693147180559945309417232121458 / 10 ^ 30

/-- Rational approximation of the real natural logarithm:
`ln x = k ln 2 + 2 atanh ((m-1)/(m+1))` for `x = m 2^k`, `m ∈ [1, 2)`. -/
def ratLn (x : ℚ) : ℚ :=
  if x ≤ 0 then 0
  else
    let mk := lnReduce 600 x 0
    let t := (mk.1 - 1) / (mk.1 + 1)
    roundScale 40 ((mk.2 : ℚ) * ln2Const + 2 * atanhSeries t)

/-- The concrete instantiation of the abstract `Decimal` transcendental
operations. -/
def ratOps : DecOps :=
  { exp := ratExp, ln := ratLn }

/-! ## Concrete scenario data -/

/-- The position used by the repository's own tests: range
`[-1000, 1000)`, liquidity `1000000`. -/
def pos0 : Position :=
  { id := 1, nft_id := "1", owner := "0xtest", pool_id := "0xpool",
    tick_lower := -1000, tick_upper := 1000, liquidity := 1000000,
    created_at := 0 }

/-- A position whose whole (valid) tick range lies in the clamped zone. -/
def posClamped : Position :=
  { id := 2, nft_id := "2", owner := "0xtest", pool_id := "0xpool",
    tick_lower := 2100000, tick_upper := 2200000, liquidity := 1,
    created_at := 0 }

/-- A wide position covering both clamp boundaries. -/
def posWide : Position :=
  { id := 3, nft_id := "3", owner := "0xtest", pool_id := "0xpool",
    tick_lower := -3000000, tick_upper := 3000000, liquidity := 1,
    created_at := 0 }

/-- A position with zero liquidity. -/
def posLiq0 : Position :=
  { id := 4, nft_id := "4", owner := "0xtest", pool_id := "0xpool",
    tick_lower := -1000, tick_upper := 1000, liquidity := 0,
    created_at := 0 }

/-- A position whose liquidity does not fit in `Decimal`'s 96-bit
mantissa (a perfectly valid `uint128`/`U256` on-chain magnitude). -/
def pos96 : Position :=
  { id := 5, nft_id := "5", owner := "0xtest", pool_id := "0xpool",
    tick_lower := -1000, tick_upper := 1000, liquidity := 2 ^ 96,
    created_at := 0 }

/-- Swap with `amount0 = amount1 = 1000` (repository test data). -/
def swapA : Swap :=
  { id := 1, tx_hash := "0xtx", pool_id := "0xpool",
    amount0 := 1000, amount1 := 1000, timestamp := 0 }

/-- Swap with `amount0 = amount1 = 2000` (repository test data). -/
def swapB : Swap :=
  { id := 2, tx_hash := "0xtx", pool_id := "0xpool",
    amount0 := 2000, amount1 := 2000, timestamp := 0 }

/-- Swap whose `amount0` exceeds `Decimal`'s mantissa range. -/
def swapBig : Swap :=
  { id := 3, tx_hash := "0xtx", pool_id := "0xpool",
    amount0 := 2 ^ 96, amount1 := 0, timestamp := 0 }

/-! ## Helper lemmas -/

lemma decimalParseOrZero_nonneg (n : ℕ) : 0 ≤ decimalParseOrZero n := by
  unfold decimalParseOrZero
  split_ifs
  · exact Nat.cast_nonneg n
  · exact le_refl 0

lemma fees_nonneg (position : Position) (swaps : List Swap) :
    0 ≤ calculate_fees_earned position swaps := by
  unfold calculate_fees_earned
  split_ifs
  · exact le_refl 0
  · refine mul_nonneg (mul_nonneg ?_ (by norm_num)) (by norm_num)
    refine List.sum_nonneg ?_
    intro x hx
    simp only [List.mem_map] at hx
    obtain ⟨s, _, rfl⟩ := hx
    exact add_nonneg (decimalParseOrZero_nonneg _) (decimalParseOrZero_nonneg _)

lemma il_nonneg (ops : DecOps) (position : Position) (ip cp : ℚ) :
    0 ≤ calculate_impermanent_loss ops position ip cp := by
  unfold calculate_impermanent_loss
  split_ifs
  · exact le_refl 0
  · exact le_refl 0
  · cases hp : decimalParse position.liquidity with
    | none =>
      simp only [Option.elim_none]
      exact le_refl 0
    | some l =>
      simp only [Option.elim_some]
      split_ifs
      · exact le_refl 0
      · exact le_refl 0
      · exact le_max_right _ 0

/-! ## C2: the three-branch AMM formula -/

/-- The token-amount function exactly as claim C2 states it, written
from the claim's words for comparison with the source embedding. -/
def token_amounts_claimed (ops : DecOps) (liquidity : ℚ)
    (current_tick tick_lower tick_upper : ℤ) : ℚ × ℚ :=
  if liquidity = 0 then (0, 0)
  else
    let sqrtPa := tick_to_sqrt_price ops tick_lower
    let sqrtPb := tick_to_sqrt_price ops tick_upper
    let sqrtP := tick_to_sqrt_price ops current_tick
    if current_tick < tick_lower then
      (liquidity * (sqrtPb - sqrtPa) / (sqrtPa * sqrtPb), 0)
    else if tick_upper ≤ current_tick then
      (0, liquidity * (sqrtPb - sqrtPa))
    else
      (liquidity * (sqrtPb - sqrtP) / (sqrtP * sqrtPb),
       liquidity * (sqrtP - sqrtPa))

/-- C2: `get_token_amounts_from_liquidity` implements the three-branch
AMM formula exactly as stated: `(0,0)` for zero liquidity, the
below-range, above-range and in-range formulas over the sqrt prices of
the range and current ticks. -/
theorem C2_token_amounts_formula (ops : DecOps) (liquidity : ℚ)
    (current_tick tick_lower tick_upper : ℤ) :
    get_token_amounts_from_liquidity ops liquidity current_tick tick_lower tick_upper =
      token_amounts_claimed ops liquidity current_tick tick_lower tick_upper := rfl

/-! ## C3: degenerate guards of `calculate_impermanent_loss` -/

/-- C3 counterexample: the code guards only on prices being exactly
zero (`is_zero`), not on `≤ 0`.  With `initial_price = -1 ≤ 0` (and
`current_price = 4`) the claim demands a result of `0`, but the code
proceeds (`price_to_tick` maps the negative price to tick `0`) and
returns a strictly positive impermanent loss. -/
theorem C3_counterexample :
    (-1 : ℚ) ≤ 0 ∧ calculate_impermanent_loss ratOps posWide (-1) 4 ≠ 0 := by
  constructor
  · norm_num
  · with_unfolding_all decide

lemma il_zero_of_guard (ops : DecOps) (position : Position) (ip cp : ℚ)
    (h : ip = 0 ∨ cp = 0 ∨ |cp - ip| < 1 / 1000000 ∨ position.liquidity = 0) :
    calculate_impermanent_loss ops position ip cp = 0 := by
  unfold calculate_impermanent_loss
  by_cases h1 : ip = 0 ∨ cp = 0
  · rw [if_pos h1]
  · rw [if_neg h1]
    by_cases h2 : |cp - ip| < 1 / 1000000
    · rw [if_pos h2]
    · rw [if_neg h2]
      have hl : position.liquidity = 0 := by tauto
      have hp : decimalParse position.liquidity = some 0 := by
        rw [hl]
        simp [decimalParse]
      rw [hp]
      simp

/-- C3 amended: `calculate_impermanent_loss` returns `0` whenever either
price is exactly zero, or the prices differ by less than `1e-6`, or the
position's liquidity is zero (the code tests `is_zero`, not `≤ 0`). -/
theorem C3_guards_amended (ops : DecOps) (position : Position) (ip cp : ℚ)
    (h : ip = 0 ∨ cp = 0 ∨ |cp - ip| < 1 / 1000000 ∨ position.liquidity = 0) :
    calculate_impermanent_loss ops position ip cp = 0 :=
  il_zero_of_guard ops position ip cp h

/-- Witness for C3 amended at a concrete input: zero liquidity, prices
`3` and `5`. -/
theorem C3_guards_amended_witness :
    calculate_impermanent_loss ratOps posLiq0 3 5 = 0 :=
  C3_guards_amended ratOps posLiq0 3 5 (Or.inr (Or.inr (Or.inr rfl)))

/-! ## C5: the fee estimate -/

/-- The fee formula exactly as claim C5 states it: the exact sum of
`|amount0| + |amount1|` over the swaps, times `0.003`, times `0.01`. -/
def fees_earned_claimed (swaps : List Swap) : ℚ :=
  ((swaps.map (fun s => ((|s.amount0| : ℤ) : ℚ) + ((|s.amount1| : ℤ) : ℚ))).sum)
    * (3 / 1000) * (1 / 100)

/-- The fee formula as amended: swap amounts whose absolute value does
not fit `Decimal`'s 96-bit mantissa contribute `0` (the code parses the
decimal string with `unwrap_or(ZERO)`). -/
def fees_earned_amended (swaps : List Swap) : ℚ :=
  ((swaps.map (fun s =>
      decimalParseOrZero s.amount0.natAbs + decimalParseOrZero s.amount1.natAbs)).sum)
    * (3 / 1000) * (1 / 100)

/-- C5 counterexample: a single swap with `amount0 = 2^96` (a valid
`I256` magnitude whose decimal string does not parse into `Decimal`):
the code counts the swap as zero volume, while the claim's formula gives
a non-zero fee. -/
theorem C5_counterexample :
    calculate_fees_earned pos0 [swapBig] ≠ fees_earned_claimed [swapBig] := by
  with_unfolding_all decide

/-- C5 amended: `calculate_fees_earned` equals the claimed volume
formula with amounts outside `Decimal`'s mantissa range contributing
zero; the empty list yields `0`, and the repository's two-swap scenario
yields exactly `0.18`. -/
theorem C5_fees_amended :
    (∀ (position : Position) (swaps : List Swap),
      calculate_fees_earned position swaps = fees_earned_amended swaps) ∧
    calculate_fees_earned pos0 [] = 0 ∧
    calculate_fees_earned pos0 [swapA, swapB] = 18 / 100 := by
  refine ⟨?_, rfl, by with_unfolding_all decide⟩
  intro position swaps
  cases swaps with
  | nil => simp [calculate_fees_earned, fees_earned_amended]
  | cons a l => rfl

/-! ## C6: the PositionPnL record -/

/-- C6 counterexample: `gas_spent` is copied verbatim from the caller,
so a negative caller-supplied `gas_spent` produces a record violating
the claimed `gas_spent ≥ 0` invariant. -/
theorem C6_counterexample :
    (calculate_position_pnl ratOps pos0 [] 1 1 (-1)).gas_spent < 0 := by
  with_unfolding_all decide

/-- C6 amended: every record produced by `calculate_position_pnl` has
`net_pnl = fees_earned - impermanent_loss - gas_spent`, nonnegative
`fees_earned` and `impermanent_loss`, and `gas_spent` equal to the
caller-supplied value (hence nonnegative exactly when the caller's value
is). -/
theorem C6_pnl_record_amended (ops : DecOps) (position : Position)
    (swaps : List Swap) (ip cp gas_spent : ℚ) :
    (calculate_position_pnl ops position swaps ip cp gas_spent).net_pnl =
      (calculate_position_pnl ops position swaps ip cp gas_spent).fees_earned -
      (calculate_position_pnl ops position swaps ip cp gas_spent).impermanent_loss -
      (calculate_position_pnl ops position swaps ip cp gas_spent).gas_spent ∧
    0 ≤ (calculate_position_pnl ops position swaps ip cp gas_spent).fees_earned ∧
    0 ≤ (calculate_position_pnl ops position swaps ip cp gas_spent).impermanent_loss ∧
    (calculate_position_pnl ops position swaps ip cp gas_spent).gas_spent = gas_spent :=
  ⟨rfl, fees_nonneg position swaps, il_nonneg ops position ip cp, rfl⟩

/-! ## C9: the health classifier (spec-modelled) -/

/-- C9: the health classifier is a total function, and classifies
exactly as described: `Critical` iff out of range or negative net P&L,
`Warning` iff in range with nonnegative net P&L and distance to the
range edge within 10% of the half-width, `Healthy` otherwise. -/
theorem C9_health_classifier (position : Position) (current_tick : ℤ)
    (pnl : PositionPnL) :
    (get_position_health position current_tick pnl = .critical ↔
      (is_in_range current_tick position.tick_lower position.tick_upper = false ∨
        pnl.net_pnl < 0)) ∧
    (get_position_health position current_tick pnl = .warning ↔
      (is_in_range current_tick position.tick_lower position.tick_upper = true ∧
        0 ≤ pnl.net_pnl ∧
        (distance_to_range_edge current_tick position.tick_lower position.tick_upper : ℚ) ≤
          ((position.tick_upper - position.tick_lower : ℤ) : ℚ) / 2 * (1 / 10))) ∧
    (get_position_health position current_tick pnl = .healthy ↔
      (is_in_range current_tick position.tick_lower position.tick_upper = true ∧
        0 ≤ pnl.net_pnl ∧
        ¬ (distance_to_range_edge current_tick position.tick_lower position.tick_upper : ℚ) ≤
          ((position.tick_upper - position.tick_lower : ℤ) : ℚ) / 2 * (1 / 10))) := by
  unfold get_position_health
  split_ifs with h1 h2
  · rcases h1 with h1 | h1 <;>
      simp_all [Bool.not_eq_true, not_lt, le_of_lt]
  · push_neg at h1
    simp_all [Bool.not_eq_false]
  · push_neg at h1
    simp_all [Bool.not_eq_false]

/-! ## C10: unrepresentable liquidity silently yields zero IL -/

/-- C10: when the position's liquidity does not fit `Decimal`'s 96-bit
mantissa (`≥ 2^96 ≈ 7.9e28`), the decimal-string parse fails and
`calculate_impermanent_loss` silently returns `0` for every pair of
prices. -/
theorem C10_liquidity_parse_silent_zero (ops : DecOps) (position : Position)
    (ip cp : ℚ) (h : 2 ^ 96 ≤ position.liquidity) :
    calculate_impermanent_loss ops position ip cp = 0 := by
  have hp : decimalParse position.liquidity = none := by
    unfold decimalParse
    rw [if_neg (by omega)]
  unfold calculate_impermanent_loss
  rw [hp]
  split_ifs <;> rfl

/-- Witness for C10 at a concrete input: liquidity `2^96` (valid
on-chain, one more than `Decimal`'s maximum), prices `1` and `2`. -/
theorem C10_liquidity_parse_silent_zero_witness :
    calculate_impermanent_loss ratOps pos96 1 2 = 0 :=
  C10_liquidity_parse_silent_zero ratOps pos96 1 2 (Nat.le_refl _)

/-! ## C1 and C4: the clamp does not prevent `Decimal` overflow

`Decimal`'s maximum value is `2^96 - 1 ≈ 7.9e28 = e^66.54...`, yet
`tick_to_sqrt_price` only clamps when `|exponent| > 100`.  The theorems
below evaluate the embedded exponent at the failing ticks and bound the
real exponential against `decimalMax`, showing the values the code asks
`Decimal` to produce exceed the representable range. -/

/-- C1: at tick `1500000` (a valid `i32`), the exponent
`≈ 74.996` passes the `|exponent| > 100` clamp check, yet
`e^74.996 > Decimal::MAX`, so the exponential overflows the `Decimal`
type instead of never overflowing for unclamped ticks as claimed. -/
theorem C1_exp_overflow_at_unclamped_tick :
    (1500000 : ℤ) < 2 ^ 31 ∧
    ¬ 100 < |tickExponent 1500000| ∧
    (decimalMax : ℝ) < Real.exp ((tickExponent 1500000 : ℚ) : ℝ) := by
  refine ⟨by norm_num, by with_unfolding_all decide, ?_⟩
  have he : (74 : ℝ) ≤ ((tickExponent 1500000 : ℚ) : ℝ) := by
    have h : (74 : ℚ) ≤ tickExponent 1500000 := by with_unfolding_all decide
    exact_mod_cast h
  calc (decimalMax : ℝ) < (2.7182818283 : ℝ) ^ (74 : ℕ) := by norm_num [decimalMax]
    _ ≤ Real.exp 1 ^ (74 : ℕ) := pow_le_pow_left₀ (by norm_num) Real.exp_one_gt_d9.le 74
    _ = Real.exp 74 := by rw [← Real.exp_nat_mul]; norm_num
    _ ≤ Real.exp ((tickExponent 1500000 : ℚ) : ℝ) := Real.exp_le_exp.mpr he

/-- C4: at tick `700000`, well inside the clamped range
(`|exponent| ≈ 35 ≤ 100`), the sqrt price `e^35 ≈ 1.6e15` is
representable but its square `e^70 ≈ 2.5e30` exceeds `Decimal::MAX`, so
`tick_to_price` overflows the `Decimal` type and the round trip
`price_to_tick(tick_to_price(t))` is undefined rather than within 1. -/
theorem C4_price_overflow_in_clamped_range :
    ¬ 100 < |tickExponent 700000| ∧
    Real.exp ((tickExponent 700000 : ℚ) : ℝ) < (decimalMax : ℝ) ∧
    (decimalMax : ℝ) < Real.exp ((tickExponent 700000 : ℚ) : ℝ) ^ 2 := by
  refine ⟨by with_unfolding_all decide, ?_, ?_⟩
  · have he : ((tickExponent 700000 : ℚ) : ℝ) ≤ 35 := by
      have h : tickExponent 700000 ≤ (35 : ℚ) := by with_unfolding_all decide
      exact_mod_cast h
    calc Real.exp ((tickExponent 700000 : ℚ) : ℝ) ≤ Real.exp 35 := Real.exp_le_exp.mpr he
      _ = Real.exp 1 ^ (35 : ℕ) := by rw [← Real.exp_nat_mul]; norm_num
      _ < (2.7182818286 : ℝ) ^ (35 : ℕ) :=
        pow_lt_pow_left₀ Real.exp_one_lt_d9 (Real.exp_pos 1).le (by norm_num)
      _ < (decimalMax : ℝ) := by norm_num [decimalMax]
  · have he : (69 : ℝ) ≤ ((tickExponent 700000 : ℚ) : ℝ) + ((tickExponent 700000 : ℚ) : ℝ) := by
      have h : (69 : ℚ) ≤ tickExponent 700000 + tickExponent 700000 := by
        with_unfolding_all decide
      exact_mod_cast h
    have hsq : Real.exp ((tickExponent 700000 : ℚ) : ℝ) ^ 2 =
        Real.exp (((tickExponent 700000 : ℚ) : ℝ) + ((tickExponent 700000 : ℚ) : ℝ)) := by
      rw [sq, ← Real.exp_add]
    rw [hsq]
    calc (decimalMax : ℝ) < (2.7182818283 : ℝ) ^ (69 : ℕ) := by norm_num [decimalMax]
      _ ≤ Real.exp 1 ^ (69 : ℕ) := pow_le_pow_left₀ (by norm_num) Real.exp_one_gt_d9.le 69
      _ = Real.exp 69 := by rw [← Real.exp_nat_mul]; norm_num
      _ ≤ Real.exp _ := Real.exp_le_exp.mpr he

/-- Narrow witness position for the amended monotonicity claim. -/
def posWitN : Position :=
  { id := 7, nft_id := "7", owner := "0xtest", pool_id := "0xpool",
    tick_lower := -5, tick_upper := 5, liquidity := 1, created_at := 0 }

/-- Wide witness position for the amended monotonicity claim. -/
def posWitW : Position :=
  { id := 8, nft_id := "8", owner := "0xtest", pool_id := "0xpool",
    tick_lower := -10, tick_upper := 10, liquidity := 1, created_at := 0 }

/-! ## Helpers for the range/monotonicity claims (C7, C8) -/

lemma tickExponent_le_of_le {a b : ℤ} (h : a ≤ b) :
    tickExponent a ≤ tickExponent b := by
  unfold tickExponent
  have ha : (a : ℚ) ≤ (b : ℚ) := by exact_mod_cast h
  have hpos : (0 : ℚ) < 1 / 2 * lnBase := by norm_num [lnBase]
  calc (a : ℚ) * (1 / 2) * lnBase = (a : ℚ) * (1 / 2 * lnBase) := by ring
    _ ≤ (b : ℚ) * (1 / 2 * lnBase) := mul_le_mul_of_nonneg_right ha hpos.le
    _ = (b : ℚ) * (1 / 2) * lnBase := by ring

lemma tickExponent_lt_of_lt {a b : ℤ} (h : a < b) :
    tickExponent a < tickExponent b := by
  unfold tickExponent
  have ha : (a : ℚ) < (b : ℚ) := by exact_mod_cast h
  have hpos : (0 : ℚ) < 1 / 2 * lnBase := by norm_num [lnBase]
  calc (a : ℚ) * (1 / 2) * lnBase = (a : ℚ) * (1 / 2 * lnBase) := by ring
    _ < (b : ℚ) * (1 / 2 * lnBase) := mul_lt_mul_of_pos_right ha hpos
    _ = (b : ℚ) * (1 / 2) * lnBase := by ring

lemma tts_eq_exp (ops : DecOps) (t : ℤ) (h : ¬ 100 < |tickExponent t|) :
    tick_to_sqrt_price ops t = ops.exp (tickExponent t) := by
  simp only [tick_to_sqrt_price]
  rw [if_neg h]

lemma unclamped_of_between {lo hi t : ℤ} (hlo : ¬ 100 < |tickExponent lo|)
    (hhi : ¬ 100 < |tickExponent hi|) (h1 : lo ≤ t) (h2 : t ≤ hi) :
    ¬ 100 < |tickExponent t| := by
  push_neg at hlo hhi ⊢
  rw [abs_le] at hlo hhi ⊢
  exact ⟨le_trans hlo.1 (tickExponent_le_of_le h1),
    le_trans (tickExponent_le_of_le h2) hhi.2⟩

lemma decimalParse_some {n : ℕ} {q : ℚ} (h : decimalParse n = some q) :
    q = (n : ℚ) := by
  unfold decimalParse at h
  split_ifs at h
  exact (Option.some_inj.mp h).symm

lemma gta_below (ops : DecOps) (liquidity : ℚ) (ct lo hi : ℤ)
    (hL : ¬ liquidity = 0) (h : ct < lo) :
    get_token_amounts_from_liquidity ops liquidity ct lo hi =
      (liquidity * (tick_to_sqrt_price ops hi - tick_to_sqrt_price ops lo) /
        (tick_to_sqrt_price ops lo * tick_to_sqrt_price ops hi), 0) := by
  simp only [get_token_amounts_from_liquidity]
  rw [if_neg hL, if_pos h]

lemma gta_above (ops : DecOps) (liquidity : ℚ) (ct lo hi : ℤ)
    (hL : ¬ liquidity = 0) (h1 : ¬ ct < lo) (h2 : hi ≤ ct) :
    get_token_amounts_from_liquidity ops liquidity ct lo hi =
      (0, liquidity * (tick_to_sqrt_price ops hi - tick_to_sqrt_price ops lo)) := by
  simp only [get_token_amounts_from_liquidity]
  rw [if_neg hL, if_neg h1, if_pos h2]

lemma gta_inrange (ops : DecOps) (liquidity : ℚ) (ct lo hi : ℤ)
    (hL : ¬ liquidity = 0) (h1 : ¬ ct < lo) (h2 : ¬ hi ≤ ct) :
    get_token_amounts_from_liquidity ops liquidity ct lo hi =
      (liquidity * (tick_to_sqrt_price ops hi - tick_to_sqrt_price ops ct) /
        (tick_to_sqrt_price ops ct * tick_to_sqrt_price ops hi),
       liquidity * (tick_to_sqrt_price ops ct - tick_to_sqrt_price ops lo)) := by
  simp only [get_token_amounts_from_liquidity]
  rw [if_neg hL, if_neg h1, if_neg h2]

lemma il_parse_none (ops : DecOps) (position : Position) (ip cp : ℚ)
    (hp : decimalParse position.liquidity = none) :
    calculate_impermanent_loss ops position ip cp = 0 := by
  simp only [calculate_impermanent_loss]
  rw [hp]
  split_ifs <;> rfl

lemma il_main (ops : DecOps) (position : Position) (ip cp L : ℚ)
    (h1 : ¬ (ip = 0 ∨ cp = 0)) (h2 : ¬ |cp - ip| < 1 / 1000000)
    (hp : decimalParse position.liquidity = some L) (hL : ¬ L = 0) :
    calculate_impermanent_loss ops position ip cp =
      (if calculate_position_value
          (get_token_amounts_from_liquidity ops L (price_to_tick ops ip)
            position.tick_lower position.tick_upper).1
          (get_token_amounts_from_liquidity ops L (price_to_tick ops ip)
            position.tick_lower position.tick_upper).2 cp = 0
       then 0
       else max ((calculate_position_value
            (get_token_amounts_from_liquidity ops L (price_to_tick ops ip)
              position.tick_lower position.tick_upper).1
            (get_token_amounts_from_liquidity ops L (price_to_tick ops ip)
              position.tick_lower position.tick_upper).2 cp -
          calculate_position_value
            (get_token_amounts_from_liquidity ops L (price_to_tick ops cp)
              position.tick_lower position.tick_upper).1
            (get_token_amounts_from_liquidity ops L (price_to_tick ops cp)
              position.tick_lower position.tick_upper).2 cp) /
          calculate_position_value
            (get_token_amounts_from_liquidity ops L (price_to_tick ops ip)
              position.tick_lower position.tick_upper).1
            (get_token_amounts_from_liquidity ops L (price_to_tick ops ip)
              position.tick_lower position.tick_upper).2 cp) 0) := by
  simp only [calculate_impermanent_loss]
  rw [if_neg h1, if_neg h2, hp]
  simp only [Option.elim_some]
  rw [if_neg hL]

lemma sub_div_mono {L s b B : ℚ} (hL : 0 ≤ L) (hs : 0 < s) (hb : 0 < b)
    (hB : 0 < B) (h : b ≤ B) :
    L * (b - s) / (s * b) ≤ L * (B - s) / (s * B) := by
  rw [div_le_div_iff₀ (mul_pos hs hb) (mul_pos hs hB)]
  nlinarith [mul_nonneg (mul_nonneg hL hs.le) (mul_nonneg hs.le (sub_nonneg.mpr h))]

/-- A simple strictly monotone, everywhere positive function used to
instantiate the abstract exponential in witnesses. -/
def wExp (q : ℚ) : ℚ :=
  if q < 0 then 1 / (1 - q) else 1 + q

/-- Witness instantiation of the abstract `Decimal` operations. -/
def wOps : DecOps :=
  { exp := wExp, ln := fun _ => 0 }

lemma wExp_pos : ∀ q : ℚ, 0 < wExp q := by
  intro q
  unfold wExp
  split_ifs with h
  · exact div_pos one_pos (by linarith)
  · push_neg at h
    linarith

lemma wExp_strictMono : StrictMono wExp := by
  intro a b hab
  unfold wExp
  by_cases ha : a < 0
  · rw [if_pos ha]
    by_cases hb : b < 0
    · rw [if_pos hb, div_lt_div_iff₀ (by linarith) (by linarith)]
      linarith
    · rw [if_neg hb]
      push_neg at hb
      have h1 : 1 / (1 - a) < 1 := by
        rw [div_lt_one (by linarith)]
        linarith
      linarith
  · rw [if_neg ha]
    push_neg at ha
    have hb : ¬ b < 0 := by push_neg; linarith
    rw [if_neg hb]
    linarith

/-! ## C8: out-of-range token amounts -/

/-- C8 counterexample: for the valid range `[3000000, 4000000)` both
range ticks are clamped to the same sqrt price `1000000`, so with
positive liquidity `1` and `current_tick = 0 < tick_lower` the function
returns `amount0 = 0`, not `amount0 > 0` as claimed. -/
theorem C8_counterexample :
    (0 : ℚ) < 1 ∧ (3000000 : ℤ) < 4000000 ∧ (0 : ℤ) < 3000000 ∧
    (get_token_amounts_from_liquidity ratOps 1 0 3000000 4000000).2 = 0 ∧
    (get_token_amounts_from_liquidity ratOps 1 0 3000000 4000000).1 = 0 := by
  refine ⟨by norm_num, by norm_num, by norm_num, ?_, ?_⟩ <;> with_unfolding_all decide

/-- C8 amended: the below-range/above-range sign facts hold for ranges
whose ticks lie in the unclamped zone (`|tick/2 · ln 1.0001| ≤ 100`),
for any positive, strictly monotone exponential model. -/
theorem C8_out_of_range_amounts_amended (ops : DecOps)
    (hpos : ∀ x, 0 < ops.exp x) (hmono : StrictMono ops.exp)
    (liquidity : ℚ) (hL : 0 < liquidity) (current_tick tick_lower tick_upper : ℤ)
    (hrange : tick_lower < tick_upper)
    (hlo : ¬ 100 < |tickExponent tick_lower|)
    (hhi : ¬ 100 < |tickExponent tick_upper|) :
    (current_tick < tick_lower →
      (get_token_amounts_from_liquidity ops liquidity current_tick tick_lower tick_upper).2 = 0 ∧
      0 < (get_token_amounts_from_liquidity ops liquidity current_tick tick_lower tick_upper).1) ∧
    (tick_upper ≤ current_tick →
      (get_token_amounts_from_liquidity ops liquidity current_tick tick_lower tick_upper).1 = 0 ∧
      0 < (get_token_amounts_from_liquidity ops liquidity current_tick tick_lower tick_upper).2) := by
  have hsa := tts_eq_exp ops tick_lower hlo
  have hsb := tts_eq_exp ops tick_upper hhi
  have hab : tick_to_sqrt_price ops tick_lower < tick_to_sqrt_price ops tick_upper := by
    rw [hsa, hsb]
    exact hmono (tickExponent_lt_of_lt hrange)
  have hapos : 0 < tick_to_sqrt_price ops tick_lower := by
    rw [hsa]
    exact hpos _
  have hbpos : 0 < tick_to_sqrt_price ops tick_upper := by
    rw [hsb]
    exact hpos _
  constructor
  · intro h
    rw [gta_below ops liquidity current_tick tick_lower tick_upper hL.ne' h]
    exact ⟨rfl, div_pos (mul_pos hL (sub_pos.mpr hab)) (mul_pos hapos hbpos)⟩
  · intro h
    rw [gta_above ops liquidity current_tick tick_lower tick_upper hL.ne' (by omega) h]
    exact ⟨rfl, mul_pos hL (sub_pos.mpr hab)⟩

/-- Witness for C8 amended at a concrete input: the range `[-5, 5)` with
the witness operations, liquidity `1`, current tick `-10` (below). -/
theorem C8_out_of_range_amounts_amended_witness :
    (get_token_amounts_from_liquidity wOps 1 (-10) (-5) 5).2 = 0 ∧
    0 < (get_token_amounts_from_liquidity wOps 1 (-10) (-5) 5).1 :=
  (C8_out_of_range_amounts_amended wOps wExp_pos wExp_strictMono 1 one_pos
    (-10) (-5) 5 (by decide) (by with_unfolding_all decide)
    (by with_unfolding_all decide)).1 (by decide)

/-! ## C7: monotonicity of IL in range width -/

/-- C7 counterexample: narrow range `[2100000, 2200000)` strictly nested
in wide range `[-3000000, 3000000)`, same liquidity `1`, same prices
`1 -> 4`.  Both price ticks (`0` and `13864`) lie below the narrow range,
whose clamped sqrt prices coincide, so the narrow position's hodl value
is `0` and its IL is `0`; the wide position is in range at both ticks
and suffers a strictly positive IL (about 20%).  The narrower range
therefore has strictly SMALLER impermanent loss. -/
theorem C7_counterexample :
    calculate_impermanent_loss ratOps posClamped 1 4 <
      calculate_impermanent_loss ratOps posWide 1 4 := by
  with_unfolding_all decide

set_option maxHeartbeats 2000000 in
/-- C7 amended: IL is monotone in range width when both the initial and
current price ticks lie inside the narrower range and the ranges lie in
the unclamped tick zone, for positive prices and any positive strictly
monotone exponential model: the nested (narrower) position then has
equal-or-greater impermanent loss. -/
theorem C7_il_monotone_amended (ops : DecOps) (hpos : ∀ x, 0 < ops.exp x)
    (hmono : StrictMono ops.exp) (pn pw : Position)
    (hliq : pn.liquidity = pw.liquidity)
    (hn1 : pw.tick_lower < pn.tick_lower) (hn2 : pn.tick_upper < pw.tick_upper)
    (ip cp : ℚ) (hip : 0 < ip) (hcp : 0 < cp)
    (hclo : ¬ 100 < |tickExponent pw.tick_lower|)
    (hchi : ¬ 100 < |tickExponent pw.tick_upper|)
    (hit1 : pn.tick_lower ≤ price_to_tick ops ip)
    (hit2 : price_to_tick ops ip < pn.tick_upper)
    (hct1 : pn.tick_lower ≤ price_to_tick ops cp)
    (hct2 : price_to_tick ops cp < pn.tick_upper) :
    calculate_impermanent_loss ops pw ip cp ≤ calculate_impermanent_loss ops pn ip cp := by
  have h1 : ¬ (ip = 0 ∨ cp = 0) := by
    push_neg
    exact ⟨hip.ne', hcp.ne'⟩
  by_cases h2 : |cp - ip| < 1 / 1000000
  · rw [il_zero_of_guard ops pw ip cp (Or.inr (Or.inr (Or.inl h2))),
      il_zero_of_guard ops pn ip cp (Or.inr (Or.inr (Or.inl h2)))]
  · rcases hparse : decimalParse pn.liquidity with _ | L
    · rw [il_parse_none ops pn ip cp hparse,
        il_parse_none ops pw ip cp (by rw [← hliq]; exact hparse)]
    · by_cases hL : L = 0
      · have hzero : pn.liquidity = 0 := by
          have := decimalParse_some hparse
          rw [hL] at this
          exact_mod_cast this.symm
        rw [il_zero_of_guard ops pn ip cp (Or.inr (Or.inr (Or.inr hzero))),
          il_zero_of_guard ops pw ip cp (Or.inr (Or.inr (Or.inr (by rw [← hliq]; exact hzero))))]
      · -- main case
        have hLpos : 0 < L := by
          have := decimalParse_some hparse
          have hnn : (0 : ℚ) ≤ L := by
            rw [this]
            exact Nat.cast_nonneg _
          exact lt_of_le_of_ne hnn (Ne.symm hL)
        have hparsew : decimalParse pw.liquidity = some L := by
          rw [← hliq]
          exact hparse
        -- range facts
        have hlohi_n : pn.tick_lower < pn.tick_upper := lt_of_le_of_lt hit1 hit2
        have hclo_n : ¬ 100 < |tickExponent pn.tick_lower| :=
          unclamped_of_between hclo hchi hn1.le (by omega)
        have hchi_n : ¬ 100 < |tickExponent pn.tick_upper| :=
          unclamped_of_between hclo hchi (by omega) hn2.le
        have hcl_it : ¬ 100 < |tickExponent (price_to_tick ops ip)| :=
          unclamped_of_between hclo hchi (by omega) (by omega)
        have hcl_ct : ¬ 100 < |tickExponent (price_to_tick ops cp)| :=
          unclamped_of_between hclo hchi (by omega) (by omega)
        -- sqrt prices
        have hsaw := tts_eq_exp ops pw.tick_lower hclo
        have hsbw := tts_eq_exp ops pw.tick_upper hchi
        have hsan := tts_eq_exp ops pn.tick_lower hclo_n
        have hsbn := tts_eq_exp ops pn.tick_upper hchi_n
        have hs0 := tts_eq_exp ops (price_to_tick ops ip) hcl_it
        have hs1 := tts_eq_exp ops (price_to_tick ops cp) hcl_ct
        set saw := tick_to_sqrt_price ops pw.tick_lower with hsaw_def
        set sbw := tick_to_sqrt_price ops pw.tick_upper with hsbw_def
        set san := tick_to_sqrt_price ops pn.tick_lower with hsan_def
        set sbn := tick_to_sqrt_price ops pn.tick_upper with hsbn_def
        set s0 := tick_to_sqrt_price ops (price_to_tick ops ip) with hs0_def
        set s1 := tick_to_sqrt_price ops (price_to_tick ops cp) with hs1_def
        -- positivity and ordering
        have hsaw_pos : 0 < saw := by rw [hsaw]; exact hpos _
        have hsbw_pos : 0 < sbw := by rw [hsbw]; exact hpos _
        have hsan_pos : 0 < san := by rw [hsan]; exact hpos _
        have hsbn_pos : 0 < sbn := by rw [hsbn]; exact hpos _
        have hs0_pos : 0 < s0 := by rw [hs0]; exact hpos _
        have hs1_pos : 0 < s1 := by rw [hs1]; exact hpos _
        have h_saw_san : saw < san := by
          rw [hsaw, hsan]
          exact hmono (tickExponent_lt_of_lt hn1)
        have h_sbn_sbw : sbn < sbw := by
          rw [hsbn, hsbw]
          exact hmono (tickExponent_lt_of_lt hn2)
        have h_san_s0 : san ≤ s0 := by
          rw [hsan, hs0]
          exact hmono.monotone (tickExponent_le_of_le hit1)
        have h_s0_sbn : s0 < sbn := by
          rw [hs0, hsbn]
          exact hmono (tickExponent_lt_of_lt hit2)
        have h_san_s1 : san ≤ s1 := by
          rw [hsan, hs1]
          exact hmono.monotone (tickExponent_le_of_le hct1)
        have h_s1_sbn : s1 < sbn := by
          rw [hs1, hsbn]
          exact hmono (tickExponent_lt_of_lt hct2)
        -- reduce the two ILs
        rw [il_main ops pn ip cp L h1 h2 hparse hL,
          il_main ops pw ip cp L h1 h2 hparsew hL,
          gta_inrange ops L (price_to_tick ops ip) pn.tick_lower pn.tick_upper hL
            (not_lt.mpr hit1) (not_le.mpr hit2),
          gta_inrange ops L (price_to_tick ops cp) pn.tick_lower pn.tick_upper hL
            (not_lt.mpr hct1) (not_le.mpr hct2),
          gta_inrange ops L (price_to_tick ops ip) pw.tick_lower pw.tick_upper hL
            (not_lt.mpr (by omega)) (not_le.mpr (by omega)),
          gta_inrange ops L (price_to_tick ops cp) pw.tick_lower pw.tick_upper hL
            (not_lt.mpr (by omega)) (not_le.mpr (by omega))]
        simp only [calculate_position_value]
        -- name the hodl/current values
        have hvhn_pos : 0 < L * (sbn - s0) / (s0 * sbn) * cp + L * (s0 - san) := by
          have t1 : 0 < L * (sbn - s0) / (s0 * sbn) * cp :=
            mul_pos (div_pos (mul_pos hLpos (sub_pos.mpr h_s0_sbn)) (mul_pos hs0_pos hsbn_pos)) hcp
          nlinarith [mul_nonneg hLpos.le (sub_nonneg.mpr h_san_s0)]
        have hvhw_pos : 0 < L * (sbw - s0) / (s0 * sbw) * cp + L * (s0 - saw) := by
          have t1 : 0 < L * (sbw - s0) / (s0 * sbw) * cp :=
            mul_pos (div_pos (mul_pos hLpos (sub_pos.mpr (lt_trans h_s0_sbn h_sbn_sbw)))
              (mul_pos hs0_pos hsbw_pos)) hcp
          nlinarith [mul_nonneg hLpos.le (sub_nonneg.mpr (le_trans h_saw_san.le h_san_s0))]
        rw [if_neg hvhn_pos.ne', if_neg hvhw_pos.ne']
        -- the difference is range-independent
        have hD : (L * (sbw - s0) / (s0 * sbw) * cp + L * (s0 - saw)) -
            (L * (sbw - s1) / (s1 * sbw) * cp + L * (s1 - saw)) =
            (L * (sbn - s0) / (s0 * sbn) * cp + L * (s0 - san)) -
            (L * (sbn - s1) / (s1 * sbn) * cp + L * (s1 - san)) := by
          field_simp
          ring
        rw [hD]
        -- the hodl values are ordered
        have hvh_le : L * (sbn - s0) / (s0 * sbn) * cp + L * (s0 - san) ≤
            L * (sbw - s0) / (s0 * sbw) * cp + L * (s0 - saw) := by
          apply add_le_add
          · exact mul_le_mul_of_nonneg_right
              (sub_div_mono hLpos.le hs0_pos hsbn_pos hsbw_pos h_sbn_sbw.le) hcp.le
          · exact mul_le_mul_of_nonneg_left (by linarith) hLpos.le
        set D := (L * (sbn - s0) / (s0 * sbn) * cp + L * (s0 - san)) -
            (L * (sbn - s1) / (s1 * sbn) * cp + L * (s1 - san)) with hD_def
        rcases le_or_lt D 0 with hD0 | hD0
        · have hw : D / (L * (sbw - s0) / (s0 * sbw) * cp + L * (s0 - saw)) ≤ 0 :=
            by rw [div_nonpos_iff]; exact Or.inr ⟨hD0, hvhw_pos.le⟩
          rw [max_eq_right hw]
          exact le_max_right _ _
        · have hstep : D / (L * (sbw - s0) / (s0 * sbw) * cp + L * (s0 - saw)) ≤
              D / (L * (sbn - s0) / (s0 * sbn) * cp + L * (s0 - san)) :=
            div_le_div_of_nonneg_left hD0.le hvhn_pos hvh_le
          exact max_le_max hstep (le_refl 0)


/-- Witness for C7 amended at a concrete input: ranges `[-5, 5)` nested
in `[-10, 10)`, liquidity `1`, prices `1` and `2`, with the witness
operations (both price ticks evaluate to `0`, inside both ranges). -/
theorem C7_il_monotone_amended_witness :
    calculate_impermanent_loss wOps posWitW 1 2 ≤
      calculate_impermanent_loss wOps posWitN 1 2 :=
  C7_il_monotone_amended wOps wExp_pos wExp_strictMono posWitN posWitW rfl
    (by decide) (by decide) 1 2 one_pos two_pos
    (by with_unfolding_all decide) (by with_unfolding_all decide)
    (by with_unfolding_all decide) (by with_unfolding_all decide)
    (by with_unfolding_all decide) (by with_unfolding_all decide)

end Stillwater
